import Mathlib

/-!
Verification of the vidread-backend content-transformation pipeline.

Shallow embedding of the Python sources:
* `ContentProcessor` — `src/app/services/content_processor.py`
  (`chunk_by_tokens`, the outline-window selection, the chapter merge and
  the `process_transcript` orchestration; the OpenAI calls and the tiktoken
  token counter are external and appear as function parameters).
* `Youtube` — `src/app/services/youtube.py` (`_extract_video_id`).
* `VideoService` — `src/app/services/video.py`
  (`create_video`, `process_and_save_video`; the MongoDB collection is
  modelled as an explicit state, the insert call as an oracle parameter).
* `AIService` — `src/app/services/ai.py`
  (`_simplified_processing`, `process_video_content` on the no-Modal path)
  together with the pydantic models of `src/app/models/video.py`.
* `Books` — the books-pipeline orchestrator, modelled from the spec where
  marked (the implementation is referenced by `app/main.py` but absent).
-/

set_option autoImplicit false

namespace ContentProcessor

/-- Whitespace test used to embed Python `str.split()`. -/
def isWs (c : Char) : Bool := c.isWhitespace

/-- Accumulator loop embedding Python `text.split()`: walk the characters,
collecting the current word in `cur`; whitespace closes the word (empty
pieces are dropped). -/
def splitGo : List Char → List Char → List (List Char)
  | [], cur => if cur = [] then [] else [cur]
  | c :: cs, cur =>
    if isWs c then
      (if cur = [] then splitGo cs [] else cur :: splitGo cs [])
    else splitGo cs (cur ++ [c])

/-- Python `text.split()` on character lists. -/
def splitWsL (l : List Char) : List (List Char) := splitGo l []

/-- Python `text.split()`: the whitespace-delimited words of a string. -/
def pyWords (s : String) : List String := (splitWsL s.data).map String.mk

/-- Python `" ".join(ws)`. -/
def joinSp : List String → String
  | [] => ""
  | [w] => w
  | w :: ws => w ++ " " ++ joinSp ws

/-- Whitespace normalization: `" ".join(s.split())` — collapse interior
whitespace runs to single spaces and trim the ends. -/
def normWs (s : String) : String := joinSp (pyWords s)

/-- The `for word in words` loop of `chunk_by_tokens`, plus the final flush
of a non-empty `current_chunk`.  `tok` is the `count_tokens` function
(tiktoken's gpt-4 encoder in the source), passed as a parameter since it is
an external dependency. -/
def chunkLoop (tok : String → Nat) (maxTokens : Nat) :
    List String → List String → Nat → List String → List String
  | [], cur, _, acc => if cur = [] then acc else acc ++ [joinSp cur]
  | w :: ws, cur, curTok, acc =>
    let wt := tok (w ++ " ")
    if curTok + wt > maxTokens then
      chunkLoop tok maxTokens ws [w] wt (acc ++ [joinSp cur])
    else
      chunkLoop tok maxTokens ws (cur ++ [w]) (curTok + wt) acc

/-- `chunk_by_tokens(text, max_tokens)` from
`content_processor.process_transcript` (lines 46-68): return the whole text
as a single chunk when it fits the budget, otherwise greedily group the
whitespace-split words. -/
def chunk_by_tokens (tok : String → Nat) (text : String) (maxTokens : Nat) :
    List String :=
  if tok text ≤ maxTokens then [text]
  else chunkLoop tok maxTokens (pyWords text) [] 0 []

/-- A word produced by splitting: non-empty and whitespace-free. -/
def goodWordL (l : List Char) : Prop := l ≠ [] ∧ ∀ c ∈ l, isWs c = false

theorem splitGo_all_good (l : List Char) :
    ∀ cur, (∀ c ∈ cur, isWs c = false) →
      ∀ w ∈ splitGo l cur, goodWordL w := by
  induction l with
  | nil =>
    intro cur hcur w hw
    simp only [splitGo] at hw
    split at hw
    · simp at hw
    · rename_i hne
      simp at hw
      exact hw ▸ ⟨hne, hcur⟩
  | cons c cs ih =>
    intro cur hcur w hw
    simp only [splitGo] at hw
    split at hw
    · split at hw
      · exact ih [] (by simp) w hw
      · rename_i hne
        rcases List.mem_cons.mp hw with h | h
        · exact h ▸ ⟨hne, hcur⟩
        · exact ih [] (by simp) w h
    · rename_i hcns
      refine ih (cur ++ [c]) ?_ w hw
      intro d hd
      rcases List.mem_append.mp hd with h | h
      · exact hcur d h
      · simp at h
        simpa [h] using hcns

theorem splitWsL_all_good (l : List Char) : ∀ w ∈ splitWsL l, goodWordL w :=
  splitGo_all_good l [] (by simp)

/-- Scanning a whitespace-free block just extends the current word. -/
theorem splitGo_word (w : List Char) (hw : ∀ c ∈ w, isWs c = false) :
    ∀ r cur, splitGo (w ++ r) cur = splitGo r (cur ++ w) := by
  induction w with
  | nil => simp
  | cons c cs ih =>
    intro r cur
    have hc : isWs c = false := hw c (by simp)
    simp only [List.cons_append, splitGo, hc, Bool.false_eq_true, if_false,
      List.append_eq]
    rw [ih (fun d hd => hw d (by simp [hd])) r (cur ++ [c])]
    simp

/-- A single space closes the current word. -/
theorem splitGo_space (r : List Char) (cur : List Char) :
    splitGo (' ' :: r) cur =
      (if cur = [] then [] else [cur]) ++ splitGo r [] := by
  have h : isWs ' ' = true := by decide
  simp only [splitGo, h, if_true]
  split <;> simp

theorem splitWsL_word_space (w : List Char) (hw : goodWordL w) (r : List Char) :
    splitWsL (w ++ ' ' :: r) = w :: splitWsL r := by
  unfold splitWsL
  rw [splitGo_word w hw.2 (' ' :: r) [], List.nil_append, splitGo_space r w,
    if_neg hw.1]
  simp

theorem splitWsL_good (w : List Char) (hw : goodWordL w) :
    splitWsL w = [w] := by
  unfold splitWsL
  have := splitGo_word w hw.2 [] []
  simp only [List.append_nil, List.nil_append] at this
  rw [this]
  simp [splitGo, hw.1]

theorem data_joinSp_cons (w x : String) (xs : List String) :
    (joinSp (w :: x :: xs)).data = w.data ++ ' ' :: (joinSp (x :: xs)).data := by
  show ((w ++ " ") ++ joinSp (x :: xs)).data = _
  rw [String.data_append, String.data_append]
  have h : (" " : String).data = [' '] := rfl
  rw [h, List.append_assoc]
  rfl

theorem mk_data (s : String) : String.mk s.data = s := by
  cases s
  rfl

/-- Splitting a space-join of whitespace-free words followed by a space
recovers the words. -/
theorem splitWsL_joinSp_sep : ∀ (g : List String),
    (∀ w ∈ g, goodWordL w.data) → ∀ (r : List Char),
    splitWsL ((joinSp g).data ++ ' ' :: r) = g.map String.data ++ splitWsL r
  | [], _, r => by
    show splitWsL (' ' :: r) = _
    unfold splitWsL
    rw [splitGo_space r [], if_pos rfl]
    simp
  | [w], hg, r => by
    show splitWsL (w.data ++ ' ' :: r) = _
    rw [splitWsL_word_space w.data (hg w (by simp))]
    rfl
  | w :: x :: xs, hg, r => by
    rw [data_joinSp_cons, List.append_assoc, List.cons_append,
      splitWsL_word_space w.data (hg w (by simp)),
      splitWsL_joinSp_sep (x :: xs) (fun u hu => hg u (by simp [hu]))]
    rfl

/-- Splitting a space-join of whitespace-free words recovers the words. -/
theorem pyWords_joinSp : ∀ (g : List String),
    (∀ w ∈ g, goodWordL w.data) → pyWords (joinSp g) = g
  | [], _ => rfl
  | [w], hg => by
    show (splitWsL w.data).map _ = _
    rw [splitWsL_good w.data (hg w (by simp))]
    simp [mk_data]
  | w :: x :: xs, hg => by
    unfold pyWords
    rw [data_joinSp_cons, splitWsL_word_space w.data (hg w (by simp))]
    have hrec : pyWords (joinSp (x :: xs)) = x :: xs :=
      pyWords_joinSp (x :: xs) (fun u hu => hg u (by simp [hu]))
    unfold pyWords at hrec
    simp only [List.map_cons, mk_data, hrec]

/-- The words of a space-join of chunks, each chunk itself a space-join of
whitespace-free words, are the concatenation of the chunks' words. -/
theorem pyWords_joinSp_map : ∀ (gs : List (List String)),
    (∀ g ∈ gs, ∀ w ∈ g, goodWordL w.data) →
    pyWords (joinSp (gs.map joinSp)) = gs.flatten
  | [], _ => rfl
  | [g], h => by
    simpa using pyWords_joinSp g (h g (by simp))
  | g :: g2 :: gs2, h => by
    unfold pyWords
    rw [List.map_cons, List.map_cons, data_joinSp_cons,
      splitWsL_joinSp_sep g (h g (by simp))]
    have hrec : pyWords (joinSp ((g2 :: gs2).map joinSp)) = (g2 :: gs2).flatten :=
      pyWords_joinSp_map (g2 :: gs2) (fun u hu w hw => h u (by simp [hu]) w hw)
    unfold pyWords at hrec
    rw [List.map_append, List.flatten_cons]
    have h1 : (g.map String.data).map String.mk = g := by
      rw [List.map_map]
      have h2 : String.mk ∘ String.data = id := funext mk_data
      rw [h2, List.map_id]
    rw [List.map_cons] at hrec
    rw [h1, hrec]

/-- The chunk loop produces, after the given accumulator, a space-join per
word group, and the groups concatenate to the remaining input words. -/
theorem chunkLoop_groups (tok : String → Nat) (B : Nat) :
    ∀ (ws cur : List String) (ct : Nat) (acc : List String),
      ∃ gs : List (List String),
        chunkLoop tok B ws cur ct acc = acc ++ gs.map joinSp ∧
        gs.flatten = cur ++ ws := by
  intro ws
  induction ws with
  | nil =>
    intro cur ct acc
    by_cases h : cur = []
    · exact ⟨[], by simp [chunkLoop, h]⟩
    · exact ⟨[cur], by simp [chunkLoop, h]⟩
  | cons w ws ih =>
    intro cur ct acc
    simp only [chunkLoop]
    split
    · obtain ⟨gs, h1, h2⟩ := ih [w] (tok (w ++ " ")) (acc ++ [joinSp cur])
      refine ⟨cur :: gs, ?_, ?_⟩
      · rw [h1]; simp
      · simp [h2]
    · obtain ⟨gs, h1, h2⟩ := ih (cur ++ [w]) (ct + tok (w ++ " ")) acc
      refine ⟨gs, h1, ?_⟩
      rw [h2]; simp

theorem mem_pyWords_good (text : String) (w : String) (hw : w ∈ pyWords text) :
    goodWordL w.data := by
  obtain ⟨l, hl, rfl⟩ := List.mem_map.mp hw
  simpa using splitWsL_all_good text.data l hl

/-- C4: for every transcript, token counter and budget, joining the chunks
returned by `chunk_by_tokens` with single spaces and normalizing whitespace
yields the normalized input: the chunker loses no words and never splits
inside a word. -/
theorem claim_C4 (tok : String → Nat) (text : String) (maxTokens : Nat) :
    normWs (joinSp (chunk_by_tokens tok text maxTokens)) = normWs text := by
  unfold chunk_by_tokens
  split
  · rfl
  · obtain ⟨gs, hout, hjoin⟩ := chunkLoop_groups tok maxTokens (pyWords text) [] 0 []
    simp only [List.nil_append] at hout hjoin
    rw [hout]
    unfold normWs
    rw [pyWords_joinSp_map gs ?good, hjoin]
    intro g hg w hwg
    exact mem_pyWords_good text w (hjoin ▸ List.mem_flatten.mpr ⟨g, hg, hwg⟩)

theorem joinSp_ne_empty (w : String) (ws : List String) (hw : w ≠ "") :
    joinSp (w :: ws) ≠ "" := by
  cases ws with
  | nil => exact hw
  | cons x xs =>
    intro h
    have hd := congrArg String.data h
    rw [data_joinSp_cons] at hd
    rcases List.append_eq_nil.mp hd with ⟨h1, h2⟩
    exact absurd h2 (by simp)

/-- All chunks the loop appends after the accumulator's first entry are
non-empty: a fresh chunk always restarts from the word that overflowed. -/
theorem chunkLoop_tail_ne (tok : String → Nat) (B : Nat) :
    ∀ (ws cur : List String) (ct : Nat) (acc : List String),
      (∀ w ∈ ws, w ≠ "") → (∀ w ∈ cur, w ≠ "") →
      (acc = [] ∨ cur ≠ []) → (∀ c ∈ acc.drop 1, c ≠ "") →
      ∀ c ∈ (chunkLoop tok B ws cur ct acc).drop 1, c ≠ "" := by
  intro ws
  induction ws with
  | nil =>
    intro cur ct acc _ hcur hinv hacc c hc
    simp only [chunkLoop] at hc
    split at hc
    · exact hacc c hc
    · rename_i hne
      cases acc with
      | nil => simp at hc
      | cons a as =>
        rw [List.cons_append, List.drop_succ_cons] at hc
        rcases List.mem_append.mp hc with h | h
        · exact hacc c (by simpa using h)
        · cases cur with
          | nil => exact absurd rfl hne
          | cons u us =>
            simp only [List.mem_singleton] at h
            exact h ▸ joinSp_ne_empty u us (hcur u (by simp))
  | cons w ws ih =>
    intro cur ct acc hws hcur hinv hacc
    simp only [chunkLoop]
    split
    · refine ih [w] _ _ (fun u hu => hws u (by simp [hu]))
        (by simpa using hws w (by simp)) (Or.inr (by simp)) ?_
      cases acc with
      | nil => simp
      | cons a as =>
        intro c hc
        rw [List.cons_append, List.drop_succ_cons] at hc
        rcases List.mem_append.mp hc with h | h
        · exact hacc c (by simpa using h)
        · rcases hinv with h0 | hne
          · simp at h0
          · cases cur with
            | nil => exact absurd rfl hne
            | cons u us =>
              simp only [List.mem_singleton] at h
              exact h ▸ joinSp_ne_empty u us (hcur u (by simp))
    · refine ih (cur ++ [w]) _ _ (fun u hu => hws u (by simp [hu])) ?_
        (Or.inr (by simp)) hacc
      intro u hu
      rcases List.mem_append.mp hu with h | h
      · exact hcur u h
      · simp only [List.mem_singleton] at h
        exact h ▸ hws w (by simp)

theorem mk_ne_empty_of_ne_nil (l : List Char) (h : l ≠ []) :
    (⟨l⟩ : String) ≠ "" := by
  intro he
  exact h (by simpa using congrArg String.data he)

/-- C5 (amended): every chunk returned by `chunk_by_tokens` other than the
first is non-empty.  (The first chunk can be empty: when the text exceeds
the budget and already the first word, with its trailing space, exceeds the
budget, the loop closes the still-empty current chunk.) -/
theorem claim_C5 (tok : String → Nat) (text : String) (maxTokens : Nat) :
    ∀ c ∈ (chunk_by_tokens tok text maxTokens).drop 1, c ≠ "" := by
  unfold chunk_by_tokens
  split
  · simp
  · refine chunkLoop_tail_ne tok maxTokens (pyWords text) [] 0 [] ?_ (by simp)
      (Or.inl rfl) (by simp)
    intro w hw
    obtain ⟨l, hl, rfl⟩ := List.mem_map.mp hw
    exact mk_ne_empty_of_ne_nil l (splitWsL_all_good text.data l hl).1

/-- C5 witness: a concrete non-first chunk, shown non-empty through
`claim_C5`. -/
theorem claim_C5_witness :
    "aa" ∈ (chunk_by_tokens String.length "aa bb" 2).drop 1 ∧ "aa" ≠ "" :=
  ⟨by decide, claim_C5 String.length "aa bb" 2 "aa" (by decide)⟩

/-- C5 counterexample: a non-empty input for which `chunk_by_tokens` emits an
empty (first) chunk — the first word's padded token count alone exceeds the
budget, so the still-empty current chunk is flushed. -/
theorem claim_C5_counterexample :
    ("aa bb" : String) ≠ "" ∧ "" ∈ chunk_by_tokens String.length "aa bb" 2 := by
  constructor
  · decide
  · decide

/-- C10: on the empty input the estimated token count is `0`, which is at
most any budget, so the single-chunk branch returns `[""]` — never the empty
list. -/
theorem claim_C10 (tok : String → Nat) (B : Nat) (h : tok "" = 0) :
    chunk_by_tokens tok "" B = [""] := by
  unfold chunk_by_tokens
  rw [h]
  simp

/-- C10 witness: the concrete length counter sends `""` to `0`, so the
chunker returns a single empty chunk. -/
theorem claim_C10_witness :
    String.length "" = 0 ∧ chunk_by_tokens String.length "" 12000 = [""] :=
  ⟨rfl, claim_C10 String.length 12000 rfl⟩

/-- One chapter fragment as parsed from a per-chunk LLM response: the value
of one `"Chapter Title": {...}` entry (`content` accessed directly,
`key_points`/`examples`/`quotes` via `.get(..., [])`). -/
structure ChapterFragment where
  content : String
  key_points : List String
  examples : List String
  quotes : List String
deriving DecidableEq, Repr

/-- One entry of the accumulated `chapters` list in `process_transcript`. -/
structure ChapterRecord where
  title : String
  content : String
  key_points : List String
  examples : List String
  quotes : List String
deriving DecidableEq, Repr

/-- The in-place update of an existing chapter (lines 198-204 of
`content_processor.py`). -/
def updateRec (r : ChapterRecord) (f : ChapterFragment) : ChapterRecord :=
  { r with
    content := r.content ++ "\n\n" ++ f.content
    key_points := r.key_points ++ f.key_points
    examples := r.examples ++ f.examples
    quotes := r.quotes ++ f.quotes }

/-- The freshly appended chapter (lines 207-215 of `content_processor.py`). -/
def newRec (t : String) (f : ChapterFragment) : ChapterRecord :=
  ⟨t, f.content, f.key_points, f.examples, f.quotes⟩

/-- Merging one titled fragment into the chapter list: the first record with
the same title is updated (`break` after the match), otherwise a new record
is appended at the end. -/
def insertFrag : List ChapterRecord → String → ChapterFragment → List ChapterRecord
  | [], t, f => [newRec t f]
  | r :: rs, t, f =>
    if r.title = t then updateRec r f :: rs else r :: insertFrag rs t f

/-- Merging one chunk's fragment mapping (`for title, content in
chunk_chapters.items()`), in key order, into the chapter list. -/
def mergeFrags (recs : List ChapterRecord)
    (frags : List (String × ChapterFragment)) : List ChapterRecord :=
  frags.foldl (fun acc p => insertFrag acc p.1 p.2) recs

/-- The chapter merge across all chunks of `process_transcript`
(lines 191-215): fold the per-chunk mappings, in chunk order, into the
initially empty chapter list. -/
def mergeChunks (chunks : List (List (String × ChapterFragment))) :
    List ChapterRecord :=
  chunks.foldl mergeFrags []

/-- First-seen deduplication of a title sequence (accumulator form). -/
def firstSeenGo (seen : List String) : List String → List String
  | [] => []
  | t :: ts =>
    if t ∈ seen then firstSeenGo seen ts else t :: firstSeenGo (t :: seen) ts

/-- The distinct titles of a sequence, in order of first appearance. -/
def firstSeen (l : List String) : List String := firstSeenGo [] l

/-- `"\n\n".join`-style paragraph join, as the repeated
`content += "\n\n" + fragment.content` produces. -/
def joinNN : List String → String
  | [] => ""
  | [c] => c
  | c :: cs => c ++ "\n\n" ++ joinNN cs

/-- The fragments carrying a given title, in processing order. -/
def fragsFor (t : String) (frags : List (String × ChapterFragment)) :
    List ChapterFragment :=
  (frags.filter (fun p => p.1 = t)).map Prod.snd

/-- The chapter record the spec prescribes for one title: fragment contents
joined by paragraph breaks, list fields concatenated in processing order
with no deduplication. -/
def recordFor (t : String) (frags : List (String × ChapterFragment)) :
    ChapterRecord :=
  ⟨t, joinNN ((fragsFor t frags).map (fun f => f.content)),
    ((fragsFor t frags).map (fun f => f.key_points)).flatten,
    ((fragsFor t frags).map (fun f => f.examples)).flatten,
    ((fragsFor t frags).map (fun f => f.quotes)).flatten⟩

/-- The merged chapter list as described by the spec: one record per
distinct title, in first-seen order. -/
def mergeSpec (frags : List (String × ChapterFragment)) : List ChapterRecord :=
  (firstSeen (frags.map Prod.fst)).map (fun t => recordFor t frags)

theorem firstSeenGo_append_singleton (l : List String) :
    ∀ (seen : List String) (a : String),
      firstSeenGo seen (l ++ [a]) =
        firstSeenGo seen l ++ (if a ∈ seen ∨ a ∈ l then [] else [a]) := by
  induction l with
  | nil =>
    intro seen a
    by_cases h : a ∈ seen <;> simp [firstSeenGo, h]
  | cons t l ih =>
    intro seen a
    simp only [List.cons_append, firstSeenGo, List.append_eq]
    by_cases ht : t ∈ seen
    · rw [if_pos ht, if_pos ht, ih seen a]
      congr 1
      by_cases ha : a ∈ seen ∨ a ∈ l
      · rw [if_pos ha, if_pos (by rcases ha with h | h <;> simp [h])]
      · rw [if_neg ha, if_neg ?_]
        intro hc
        rcases hc with h | h
        · exact ha (Or.inl h)
        · rcases List.mem_cons.mp h with h | h
          · exact ha (Or.inl (h ▸ ht))
          · exact ha (Or.inr h)
    · rw [if_neg ht, if_neg ht, ih (t :: seen) a, List.cons_append]
      congr 2
      by_cases ha : a ∈ t :: seen ∨ a ∈ l
      · rw [if_pos ha, if_pos ?_]
        rcases ha with h | h
        · rcases List.mem_cons.mp h with h | h
          · exact Or.inr (by simp [h])
          · exact Or.inl h
        · exact Or.inr (by simp [h])
      · rw [if_neg ha, if_neg ?_]
        intro hc
        rcases hc with h | h
        · exact ha (Or.inl (by simp [h]))
        · rcases List.mem_cons.mp h with h | h
          · exact ha (Or.inl (by simp [h]))
          · exact ha (Or.inr h)

theorem mem_firstSeenGo (l : List String) :
    ∀ (seen : List String) (x : String),
      x ∈ firstSeenGo seen l ↔ x ∈ l ∧ x ∉ seen := by
  induction l with
  | nil => intro seen x; simp [firstSeenGo]
  | cons t l ih =>
    intro seen x
    simp only [firstSeenGo]
    by_cases ht : t ∈ seen
    · rw [if_pos ht, ih]
      constructor
      · rintro ⟨h1, h2⟩; exact ⟨by simp [h1], h2⟩
      · rintro ⟨h1, h2⟩
        rcases List.mem_cons.mp h1 with h | h
        · exact absurd (h ▸ ht) h2
        · exact ⟨h, h2⟩
    · rw [if_neg ht]
      constructor
      · intro h
        rcases List.mem_cons.mp h with h | h
        · exact ⟨by simp [h], h ▸ ht⟩
        · obtain ⟨h1, h2⟩ := (ih (t :: seen) x).mp h
          exact ⟨by simp [h1], fun hc => h2 (by simp [hc])⟩
      · rintro ⟨h1, h2⟩
        rcases List.mem_cons.mp h1 with h | h
        · exact h ▸ List.mem_cons_self _ _
        · by_cases hx : x = t
          · exact hx ▸ List.mem_cons_self _ _
          · exact List.mem_cons_of_mem _ ((ih (t :: seen) x).mpr
              ⟨h, by simp [hx, h2]⟩)

theorem nodup_firstSeenGo (l : List String) :
    ∀ seen : List String, (firstSeenGo seen l).Nodup := by
  induction l with
  | nil => intro seen; simp [firstSeenGo]
  | cons t l ih =>
    intro seen
    simp only [firstSeenGo]
    by_cases ht : t ∈ seen
    · rw [if_pos ht]; exact ih seen
    · rw [if_neg ht]
      refine List.nodup_cons.mpr ⟨?_, ih (t :: seen)⟩
      intro hc
      exact ((mem_firstSeenGo l (t :: seen) t).mp hc).2 (by simp)

theorem joinNN_append_singleton : ∀ (cs : List String) (c : String),
    cs ≠ [] → joinNN (cs ++ [c]) = joinNN cs ++ "\n\n" ++ c
  | [], _, h => absurd rfl h
  | [x], c, _ => rfl
  | x :: y :: cs, c, _ => by
    show x ++ "\n\n" ++ joinNN ((y :: cs) ++ [c]) = _
    rw [joinNN_append_singleton (y :: cs) c (by simp)]
    show _ = (x ++ "\n\n" ++ joinNN (y :: cs)) ++ "\n\n" ++ c
    simp [String.append_assoc]

theorem fragsFor_append_eq (t : String) (fs : List (String × ChapterFragment))
    (f : ChapterFragment) :
    fragsFor t (fs ++ [(t, f)]) = fragsFor t fs ++ [f] := by
  unfold fragsFor
  rw [List.filter_append]
  simp

theorem fragsFor_append_ne (t' t : String) (hne : t' ≠ t)
    (fs : List (String × ChapterFragment)) (f : ChapterFragment) :
    fragsFor t' (fs ++ [(t, f)]) = fragsFor t' fs := by
  unfold fragsFor
  rw [List.filter_append]
  have : List.filter (fun p => decide (p.1 = t')) [(t, f)] = [] := by
    simp [Ne.symm hne]
  rw [this, List.append_nil]

theorem fragsFor_eq_nil (t : String) (fs : List (String × ChapterFragment))
    (h : t ∉ fs.map Prod.fst) : fragsFor t fs = [] := by
  unfold fragsFor
  have : List.filter (fun p => decide (p.1 = t)) fs = [] := by
    rw [List.filter_eq_nil_iff]
    intro p hp hc
    exact h (List.mem_map.mpr ⟨p, hp, by simpa using hc⟩)
  rw [this]
  rfl

theorem fragsFor_ne_nil (t : String) (fs : List (String × ChapterFragment))
    (h : t ∈ fs.map Prod.fst) : fragsFor t fs ≠ [] := by
  obtain ⟨p, hp, hpt⟩ := List.mem_map.mp h
  unfold fragsFor
  intro hc
  rw [List.map_eq_nil_iff, List.filter_eq_nil_iff] at hc
  exact hc p hp (by simp [hpt])

theorem recordFor_append_ne (t' t : String) (hne : t' ≠ t)
    (fs : List (String × ChapterFragment)) (f : ChapterFragment) :
    recordFor t' (fs ++ [(t, f)]) = recordFor t' fs := by
  unfold recordFor
  rw [fragsFor_append_ne t' t hne]

theorem recordFor_append_eq (t : String) (fs : List (String × ChapterFragment))
    (f : ChapterFragment) (h : t ∈ fs.map Prod.fst) :
    recordFor t (fs ++ [(t, f)]) = updateRec (recordFor t fs) f := by
  unfold recordFor updateRec
  rw [fragsFor_append_eq]
  have hne : (fragsFor t fs).map (fun f => f.content) ≠ [] := by
    simpa using fragsFor_ne_nil t fs h
  simp only [List.map_append, List.map_cons, List.map_nil, List.flatten_append,
    List.flatten_cons, List.flatten_nil, List.append_nil]
  rw [joinNN_append_singleton _ _ hne]

theorem recordFor_append_new (t : String) (fs : List (String × ChapterFragment))
    (f : ChapterFragment) (h : t ∉ fs.map Prod.fst) :
    recordFor t (fs ++ [(t, f)]) = newRec t f := by
  unfold recordFor newRec
  rw [fragsFor_append_eq, fragsFor_eq_nil t fs h]
  simp [joinNN]

theorem insertFrag_not_mem : ∀ (recs : List ChapterRecord) (t : String)
    (f : ChapterFragment), (∀ r ∈ recs, r.title ≠ t) →
    insertFrag recs t f = recs ++ [newRec t f]
  | [], _, _, _ => rfl
  | r :: rs, t, f, h => by
    unfold insertFrag
    rw [if_neg (h r (by simp)), insertFrag_not_mem rs t f
      (fun u hu => h u (by simp [hu]))]
    rfl

theorem insertFrag_map (t : String) (f : ChapterFragment) :
    ∀ (ts : List String) (g : String → ChapterRecord),
      (∀ x, (g x).title = x) → ts.Nodup → t ∈ ts →
      insertFrag (ts.map g) t f =
        ts.map (fun x => if x = t then updateRec (g x) f else g x) := by
  intro ts
  induction ts with
  | nil => intro g _ _ h; simp at h
  | cons x ts ih =>
    intro g hg hnd hmem
    rw [List.map_cons, List.map_cons]
    by_cases hx : x = t
    · unfold insertFrag
      rw [if_pos (by rw [hg x, hx]), if_pos hx]
      congr 1
      refine (List.map_congr_left ?_).symm
      intro y hy
      have hyx : y ≠ t := by
        intro hc
        exact (List.nodup_cons.mp hnd).1 (hx ▸ hc ▸ hy)
      rw [if_neg hyx]
    · unfold insertFrag
      rw [if_neg (by rw [hg x]; exact hx), if_neg hx]
      have hmem' : t ∈ ts := by
        rcases List.mem_cons.mp hmem with h | h
        · exact absurd h.symm hx
        · exact h
      rw [ih g hg (List.nodup_cons.mp hnd).2 hmem']

theorem mergeSpec_title_mem (fs : List (String × ChapterFragment))
    (r : ChapterRecord) (hr : r ∈ mergeSpec fs) : r.title ∈ fs.map Prod.fst := by
  unfold mergeSpec at hr
  obtain ⟨t, ht, rfl⟩ := List.mem_map.mp hr
  exact ((mem_firstSeenGo _ [] t).mp ht).1

/-- One step of the merge preserves the spec-side characterization. -/
theorem insertFrag_mergeSpec (fs : List (String × ChapterFragment))
    (t : String) (f : ChapterFragment) :
    insertFrag (mergeSpec fs) t f = mergeSpec (fs ++ [(t, f)]) := by
  by_cases ht : t ∈ fs.map Prod.fst
  · unfold mergeSpec
    rw [insertFrag_map t f (firstSeen (fs.map Prod.fst))
      (fun x => recordFor x fs) (fun x => rfl) (nodup_firstSeenGo _ [])
      ((mem_firstSeenGo _ [] t).mpr ⟨ht, by simp⟩)]
    have hfs : firstSeen ((fs ++ [(t, f)]).map Prod.fst) =
        firstSeen (fs.map Prod.fst) := by
      unfold firstSeen
      rw [List.map_append, List.map_singleton,
        firstSeenGo_append_singleton, if_pos (Or.inr ht), List.append_nil]
    rw [hfs]
    refine List.map_congr_left ?_
    intro x hx
    by_cases hxt : x = t
    · rw [if_pos hxt, hxt, recordFor_append_eq t fs f ht]
    · rw [if_neg hxt, recordFor_append_ne x t hxt]
  · have hnot : ∀ r ∈ mergeSpec fs, r.title ≠ t := by
      intro r hr hc
      exact ht (hc ▸ mergeSpec_title_mem fs r hr)
    rw [insertFrag_not_mem _ t f hnot]
    unfold mergeSpec
    have hfs : firstSeen ((fs ++ [(t, f)]).map Prod.fst) =
        firstSeen (fs.map Prod.fst) ++ [t] := by
      unfold firstSeen
      rw [List.map_append, List.map_singleton,
        firstSeenGo_append_singleton, if_neg (by simpa using ht)]
    rw [hfs, List.map_append, List.map_singleton]
    congr 1
    · refine List.map_congr_left ?_
      intro x hx
      have hxt : x ≠ t := by
        intro hc
        exact ht (hc ▸ ((mem_firstSeenGo _ [] x).mp hx).1)
      rw [recordFor_append_ne x t hxt]
    · rw [recordFor_append_new t fs f ht]

theorem mergeFrags_nil_eq_spec (fs : List (String × ChapterFragment)) :
    mergeFrags [] fs = mergeSpec fs := by
  induction fs using List.reverseRecOn with
  | nil => rfl
  | append_singleton fs p ih =>
    have hstep : mergeFrags [] (fs ++ [p]) =
        insertFrag (mergeFrags [] fs) p.1 p.2 := by
      unfold mergeFrags
      rw [List.foldl_append]
      rfl
    rw [hstep, ih, insertFrag_mergeSpec]

theorem foldl_mergeFrags_flatten (chunks : List (List (String × ChapterFragment))) :
    ∀ recs : List ChapterRecord,
      chunks.foldl mergeFrags recs = mergeFrags recs chunks.flatten := by
  induction chunks with
  | nil => intro recs; rfl
  | cons c cs ih =>
    intro recs
    rw [List.foldl_cons, ih, List.flatten_cons]
    unfold mergeFrags
    rw [List.foldl_append]

/-- C1: the chapter merge of `process_transcript` produces, for any ordered
sequence of per-chunk title-to-fragment mappings, exactly one record per
distinct title (exact string equality), in order of first appearance; each
record's content is the `"\n\n"`-join of its fragments' contents in
processing order, and its `key_points`, `examples` and `quotes` are the
concatenations of the fragments' lists, without deduplication — i.e. the
fold over chunks equals the spec-side `mergeSpec` of the flattened
fragment sequence. -/
theorem claim_C1 (chunks : List (List (String × ChapterFragment))) :
    mergeChunks chunks = mergeSpec chunks.flatten := by
  unfold mergeChunks
  rw [foldl_mergeFrags_flatten chunks [], mergeFrags_nil_eq_spec]

/-- The per-chunk outline-window selection of `process_transcript`
(lines 120-144): with `progress = (i+1)/n` (exact arithmetic standing for
the Python float arithmetic; `int(...)` on these non-negative values is the
floor), outlines of at most 3 entries are processed whole; otherwise the
first chunk takes the first `min 3 len` entries, the last chunk the final 3,
and every other chunk the clamped window `[start_idx, end_idx)`. -/
def chaptersToProcess (outline : List String) (i n : Nat) : List String :=
  if outline.length ≤ 3 then outline
  else
    let len := outline.length
    let progress : ℚ := ((i : ℚ) + 1) / (n : ℚ)
    let start_idx0 := (⌊progress * (len : ℚ) * (0.8 : ℚ)⌋).toNat
    let start_idx := max 0 (min start_idx0 (len - 1))
    let end_idx0 := (⌊progress * (len : ℚ) * (1.2 : ℚ)⌋).toNat + 1
    let end_idx := max (start_idx + 1) (min end_idx0 len)
    if i = 0 then outline.take (min 3 len)
    else if i = n - 1 then outline.drop (len - 3)
    else (outline.drop start_idx).take (end_idx - start_idx)

/-- The claim's start index: `floor(progress * len * 0.8)` clamped to
`[0, len-1]`. -/
def claimStart (len i n : Nat) : Nat :=
  max 0 (min ((⌊(((i : ℚ) + 1) / (n : ℚ)) * (len : ℚ) * (0.8 : ℚ)⌋).toNat)
    (len - 1))

/-- The claim's end index: `floor(progress * len * 1.2) + 1` clamped to
`[start+1, len]`. -/
def claimEnd (len i n : Nat) : Nat :=
  max (claimStart len i n + 1)
    (min ((⌊(((i : ℚ) + 1) / (n : ℚ)) * (len : ℚ) * (1.2 : ℚ)⌋).toNat + 1) len)

/-- C2 exactly as claimed: all entries when the outline is short, and
unconditionally the first-chunk window for `i = 0`, the last-chunk window
for `i = n - 1`, and the clamped `[start, end)` window for every other
chunk. -/
def C2ClaimStatement : Prop :=
  ∀ (outline : List String) (i n : Nat), 0 < n → i < n →
    (outline.length ≤ 3 → chaptersToProcess outline i n = outline) ∧
    (3 < outline.length →
      (i = 0 →
        chaptersToProcess outline i n = outline.take (min 3 outline.length)) ∧
      (i = n - 1 →
        chaptersToProcess outline i n = outline.drop (outline.length - 3)) ∧
      (i ≠ 0 → i ≠ n - 1 →
        chaptersToProcess outline i n =
          (outline.drop (claimStart outline.length i n)).take
            (claimEnd outline.length i n - claimStart outline.length i n)))

theorem floor_mul_eq_div (i n len a b : Nat) (hn : 0 < n) (hb : 0 < b) :
    (⌊(((i : ℚ) + 1) / (n : ℚ)) * (len : ℚ) * ((a : ℚ) / (b : ℚ))⌋).toNat =
      (a * (i + 1) * len) / (b * n) := by
  have hn' : (n : ℚ) ≠ 0 := Nat.cast_ne_zero.mpr hn.ne'
  have hb' : (b : ℚ) ≠ 0 := Nat.cast_ne_zero.mpr hb.ne'
  have h : (((i : ℚ) + 1) / (n : ℚ)) * (len : ℚ) * ((a : ℚ) / (b : ℚ)) =
      ((a * (i + 1) * len : ℕ) : ℚ) / ((b * n : ℕ) : ℚ) := by
    push_cast
    field_simp
    ring
  rw [h, Rat.floor_natCast_div_natCast]
  exact Int.toNat_natCast _

theorem claimStart_eq_div (len i n : Nat) (hn : 0 < n) :
    claimStart len i n = max 0 (min ((4 * (i + 1) * len) / (5 * n)) (len - 1)) := by
  unfold claimStart
  rw [show (0.8 : ℚ) = (4 : ℚ) / (5 : ℚ) by norm_num]
  rw [show ((4 : ℚ) / (5 : ℚ)) = (((4 : ℕ) : ℚ) / ((5 : ℕ) : ℚ)) by norm_num]
  rw [floor_mul_eq_div i n len 4 5 hn (by norm_num)]

theorem claimEnd_eq_div (len i n : Nat) (hn : 0 < n) :
    claimEnd len i n =
      max (claimStart len i n + 1)
        (min ((6 * (i + 1) * len) / (5 * n) + 1) len) := by
  unfold claimEnd
  rw [show (1.2 : ℚ) = (6 : ℚ) / (5 : ℚ) by norm_num]
  rw [show ((6 : ℚ) / (5 : ℚ)) = (((6 : ℕ) : ℚ) / ((5 : ℕ) : ℚ)) by norm_num]
  rw [floor_mul_eq_div i n len 6 5 hn (by norm_num)]

/-- C2 (amended): as claimed, except that when the single chunk is both
first and last (`n = 1`), the first-chunk rule takes precedence — the code
tests `i == 0` before `i == n - 1`. -/
theorem claim_C2 (outline : List String) (i n : Nat) (hn : 0 < n) (hi : i < n) :
    (outline.length ≤ 3 → chaptersToProcess outline i n = outline) ∧
    (3 < outline.length →
      (i = 0 →
        chaptersToProcess outline i n = outline.take (min 3 outline.length)) ∧
      (i ≠ 0 → i = n - 1 →
        chaptersToProcess outline i n = outline.drop (outline.length - 3)) ∧
      (i ≠ 0 → i ≠ n - 1 →
        chaptersToProcess outline i n =
          (outline.drop (claimStart outline.length i n)).take
            (claimEnd outline.length i n - claimStart outline.length i n))) := by
  unfold chaptersToProcess
  refine ⟨fun h3 => ?_, fun h3 => ⟨fun h0 => ?_, fun h0 hlast => ?_,
    fun h0 hlast => ?_⟩⟩
  · rw [if_pos h3]
  · rw [if_neg (by omega), if_pos h0]
  · rw [if_neg (by omega), if_neg h0, if_pos hlast]
  · rw [if_neg (by omega), if_neg h0, if_neg hlast]
    rfl

/-- C2 counterexample: with a 4-entry outline and a single chunk
(`n = 1`, `i = 0`), the chunk is both first and last; the code takes the
first-chunk branch and selects the first three entries, while the claim's
last-chunk clause demands the final three — so the claim, as stated, is
false. -/
theorem claim_C2_counterexample : ¬ C2ClaimStatement := by
  intro h
  have h2 := ((h ["A", "B", "C", "D"] 0 1 (by norm_num) (by norm_num)).2
    (by norm_num)).2.1 rfl
  have h3 : chaptersToProcess ["A", "B", "C", "D"] 0 1 = ["A", "B", "C"] := by
    unfold chaptersToProcess
    norm_num
  rw [h3] at h2
  simp at h2

/-- C2 witness: with a 10-entry outline and 5 chunks, chunk 0 selects
entries `[0,3)`, chunk 4 (last) selects `[7,10)`, and middle chunk 1
selects the clamped window `[3,5)` — all by applying `claim_C2`. -/
theorem claim_C2_witness :
    chaptersToProcess ["O1", "O2", "O3", "O4", "O5", "O6", "O7", "O8", "O9",
      "O10"] 0 5 = ["O1", "O2", "O3"] ∧
    chaptersToProcess ["O1", "O2", "O3", "O4", "O5", "O6", "O7", "O8", "O9",
      "O10"] 4 5 = ["O8", "O9", "O10"] ∧
    chaptersToProcess ["O1", "O2", "O3", "O4", "O5", "O6", "O7", "O8", "O9",
      "O10"] 1 5 = ["O4", "O5"] := by
  refine ⟨?_, ?_, ?_⟩
  · have h := ((claim_C2 ["O1", "O2", "O3", "O4", "O5", "O6", "O7", "O8",
      "O9", "O10"] 0 5 (by norm_num) (by norm_num)).2 (by norm_num)).1 rfl
    rw [h]
    rfl
  · have h := (((claim_C2 ["O1", "O2", "O3", "O4", "O5", "O6", "O7", "O8",
      "O9", "O10"] 4 5 (by norm_num) (by norm_num)).2 (by norm_num)).2.1
      (by norm_num) rfl)
    rw [h]
    rfl
  · have hlen : (["O1", "O2", "O3", "O4", "O5", "O6", "O7", "O8", "O9",
      "O10"] : List String).length = 10 := rfl
    have h := (((claim_C2 ["O1", "O2", "O3", "O4", "O5", "O6", "O7", "O8",
      "O9", "O10"] 1 5 (by norm_num) (by norm_num)).2 (by norm_num)).2.2
      (by norm_num) (by norm_num))
    rw [hlen] at h
    rw [h, claimStart_eq_div 10 1 5 (by norm_num),
      claimEnd_eq_div 10 1 5 (by norm_num),
      claimStart_eq_div 10 1 5 (by norm_num)]
    decide

/-- A further-reading suggestion, one entry of the parsed references
response. -/
structure Reading where
  title : String
  author : String
  description : String
deriving DecidableEq, Repr

/-- The metadata fields `process_transcript` reads
(`metadata['title']`, `['channel']`, `['duration']`, `['video_id']`,
`metadata.get('upload_date', '')`). -/
structure VideoMeta where
  title : String
  channel : String
  duration : Nat
  video_id : String
  upload_date : String

/-- The parsed first-stage (outline) response, with the lenient
`overview_data.get(..., default)` accesses already applied. -/
structure Overview where
  summary : String
  chapter_outline : List String
  key_themes : List String
  target_audience : String
  difficulty_level : String

/-- The assembled `processed_content` dictionary of `process_transcript`
(lines 305-322). -/
structure BookContent where
  title : String
  author : String
  summary : String
  chapters : List ChapterRecord
  glossary : List (String × String)
  further_reading : List Reading
  key_themes : List String
  target_audience : String
  difficulty_level : String
  source_id : String
  source_url : String
  duration : Nat
  upload_date : String

/-- The `process_transcript` orchestration (stages 1-5).  Each OpenAI call
is an oracle parameter returning either the parsed structured response or
the exception the `try` block would catch: a failing chunk call is skipped
(`except` at line 219), a failing glossary call yields `{}` (line 259), a
failing references call yields `[]` (line 303), and a failing overview call
propagates out of the outer `try` (line 329). -/
def processTranscript
    (overviewCall : Except String Overview)
    (chapterCall : Nat → List String → String →
      Except String (List (String × ChapterFragment)))
    (glossaryCall : Except String (List (String × String)))
    (referencesCall : Except String (List Reading))
    (tok : String → Nat) (meta : VideoMeta) (transcript : String)
    (maxTokensPerChunk : Nat) : Except String BookContent :=
  match overviewCall with
  | .error e => .error e
  | .ok ov =>
    let chapter_outline := ov.chapter_outline
    let transcript_chunks := chunk_by_tokens tok transcript maxTokensPerChunk
    let chapters := transcript_chunks.enum.foldl
      (fun acc ic =>
        match chapterCall ic.1
            (chaptersToProcess chapter_outline ic.1 transcript_chunks.length)
            ic.2 with
        | .error _ => acc
        | .ok frags => mergeFrags acc frags) []
    let glossary :=
      match glossaryCall with
      | .error _ => []
      | .ok g => g
    let further_reading :=
      match referencesCall with
      | .error _ => []
      | .ok r => r
    .ok
      { title := meta.title
        author := meta.channel
        summary := ov.summary
        chapters := chapters
        glossary := glossary
        further_reading := further_reading
        key_themes := ov.key_themes
        target_audience := ov.target_audience
        difficulty_level := ov.difficulty_level
        source_id := meta.video_id
        source_url := "https://www.youtube.com/watch?v=" ++ meta.video_id
        duration := meta.duration
        upload_date := meta.upload_date }

/-- Folding with per-element error-skipping equals merging the flattened
successful outputs in order. -/
theorem foldl_skip_errors {α : Type} (call : α → Except String (List (String × ChapterFragment))) :
    ∀ (l : List α) (acc : List ChapterRecord),
      l.foldl (fun a x =>
          match call x with
          | .error _ => a
          | .ok frags => mergeFrags a frags) acc =
        mergeFrags acc ((l.filterMap (fun x => (call x).toOption)).flatten) := by
  intro l
  induction l with
  | nil => intro acc; rfl
  | cons x l ih =>
    intro acc
    simp only [Except.toOption] at ih
    cases hcx : call x with
    | error e =>
      simp only [List.foldl_cons, List.filterMap_cons, hcx, Except.toOption]
      exact ih acc
    | ok frags =>
      simp only [List.foldl_cons, List.filterMap_cons, hcx, Except.toOption,
        List.flatten_cons]
      rw [ih (mergeFrags acc frags)]
      unfold mergeFrags
      rw [List.foldl_append]

/-- C8: with a successful outline stage, `process_transcript` always returns
an assembled document; a failing glossary call yields an empty glossary, a
failing further-reading call yields an empty further-reading list, and a
failing chapter call for a chunk skips exactly that chunk — the chapter list
is the merge of the successful chunks' fragments in order. -/
theorem claim_C8
    (overviewCall : Except String Overview)
    (chapterCall : Nat → List String → String →
      Except String (List (String × ChapterFragment)))
    (glossaryCall : Except String (List (String × String)))
    (referencesCall : Except String (List Reading))
    (tok : String → Nat) (meta : VideoMeta) (transcript : String)
    (maxTokensPerChunk : Nat) (ov : Overview)
    (hov : overviewCall = .ok ov) :
    ∃ bc : BookContent,
      processTranscript overviewCall chapterCall glossaryCall referencesCall
        tok meta transcript maxTokensPerChunk = .ok bc ∧
      (∀ e, glossaryCall = .error e → bc.glossary = []) ∧
      (∀ e, referencesCall = .error e → bc.further_reading = []) ∧
      bc.chapters = mergeFrags []
        (((chunk_by_tokens tok transcript maxTokensPerChunk).enum.filterMap
          (fun ic => (chapterCall ic.1
            (chaptersToProcess ov.chapter_outline ic.1
              (chunk_by_tokens tok transcript maxTokensPerChunk).length)
            ic.2).toOption)).flatten) := by
  subst hov
  refine ⟨_, rfl, ?_, ?_, ?_⟩
  · intro e he
    simp [he]
  · intro e he
    simp [he]
  · exact foldl_skip_errors _ _ []

/-- C8 witness: a concrete run in which the glossary and further-reading
calls fail and the second chunk's chapter call fails; the pipeline still
returns an assembled document with empty glossary and further reading. -/
theorem claim_C8_witness :
    ∃ bc : BookContent,
      processTranscript (Except.ok ⟨"sum", ["Intro"], ["theme"], "aud", "easy"⟩)
        (fun i _ _ =>
          if i = 0 then Except.ok [("Intro", ⟨"text", ["k"], [], []⟩)]
          else Except.error "chunk boom")
        (Except.error "glossary boom") (Except.error "refs boom")
        String.length ⟨"T", "C", 60, "vid123", "2024"⟩ "aaaa bbbb" 5 =
        Except.ok bc ∧
      bc.glossary = [] ∧ bc.further_reading = [] := by
  obtain ⟨bc, h1, h2, h3, _⟩ := claim_C8
    (Except.ok ⟨"sum", ["Intro"], ["theme"], "aud", "easy"⟩)
    (fun i _ _ =>
      if i = 0 then Except.ok [("Intro", ⟨"text", ["k"], [], []⟩)]
      else Except.error "chunk boom")
    (Except.error "glossary boom") (Except.error "refs boom")
    String.length ⟨"T", "C", 60, "vid123", "2024"⟩ "aaaa bbbb" 5
    ⟨"sum", ["Intro"], ["theme"], "aud", "easy"⟩ rfl
  exact ⟨bc, h1, h2 _ rfl, h3 _ rfl⟩

end ContentProcessor

namespace Youtube

/-- `[A-Za-z0-9_-]`, the character class of the bare-id check. -/
def isIdChar (c : Char) : Bool := c.isAlpha || c.isDigit || c = '_' || c = '-'

/-- `[^&\n?#]`, complemented: the characters that terminate the capture
group of `_extract_video_id`'s URL pattern. -/
def isStopChar (c : Char) : Bool := c = '&' || c = '\n' || c = '?' || c = '#'

/-- The capture group `([^&\n?#]+)`: greedily take non-stop characters,
requiring at least one. -/
def capture (l : List Char) : Option (List Char) :=
  let g := l.takeWhile (fun c => !isStopChar c)
  if g = [] then none else some g

/-- Match a literal; on success return the remaining input. -/
def litMatch : List Char → List Char → Option (List Char)
  | [], r => some r
  | _ :: _, [] => none
  | p :: ps, c :: cs => if p = c then litMatch ps cs else none

/-- A literal alternative followed by the capture group. -/
def tryLit (lit : List Char) (s : List Char) : Option (List Char) :=
  match litMatch lit s with
  | none => none
  | some r => capture r

/-- `.*sep` followed by the capture group: `.*` is greedy (prefer the
longest gap), cannot cross a newline, and backtracks until the separator
and a non-empty capture succeed. -/
def greedySep (sep : List Char) : List Char → Option (List Char)
  | [] => none
  | c :: r =>
    match (if c = '\n' then none else greedySep sep r) with
    | some g => some g
    | none =>
      match litMatch sep (c :: r) with
      | none => none
      | some rest => capture rest

/-- The six alternatives of the URL pattern, in source order. -/
def tryAlts (s : List Char) : Option (List Char) :=
  match tryLit "youtube.com/watch?v=".toList s with
  | some g => some g
  | none =>
  match tryLit "youtu.be/".toList s with
  | some g => some g
  | none =>
  match tryLit "youtube.com/embed/".toList s with
  | some g => some g
  | none =>
  match tryLit "youtube.com/v/".toList s with
  | some g => some g
  | none =>
  match (match litMatch "youtube.com/watch?".toList s with
         | none => none
         | some rest => greedySep "v=".toList rest) with
  | some g => some g
  | none =>
  match litMatch "youtube.com/watch?".toList s with
  | none => none
  | some rest => greedySep "&v=".toList rest

/-- `re.search`: leftmost position at which some alternative (in order)
matches. -/
def searchFrom : List Char → Option (List Char)
  | [] => none
  | c :: r =>
    match tryAlts (c :: r) with
    | some g => some g
    | none => searchFrom r

/-- `_extract_video_id` from `youtube.py` (lines 184-200): a bare 11-char
id is returned as-is, otherwise the first match of the URL pattern's
capture group; `none` stands for the `ValueError`. -/
def extractVideoId (url : String) : Option String :=
  if url.length = 11 && url.data.all isIdChar then some url
  else (searchFrom url.data).map String.mk

end Youtube

namespace VideoService

/-- The processed video document handed to `create_video` — identified by
its YouTube `video_id`; the remaining payload is summarized by `title`. -/
structure VideoDoc where
  video_id : String
  title : String
deriving DecidableEq, Repr

/-- A document in the `videos` collection: Mongo `_id`, payload and the
timestamps `create_video` stamps before inserting. -/
structure StoredVideo where
  oid : Nat
  doc : VideoDoc
  created_at : Nat
  updated_at : Nat
deriving DecidableEq, Repr

/-- The `videos` collection: stored documents plus the next fresh `_id`. -/
structure VideosDb where
  videos : List StoredVideo
  nextOid : Nat
deriving DecidableEq, Repr

inductive DbError where
  | duplicateKey
  | notFound
deriving DecidableEq, Repr

inductive PError where
  | noVideoId (url : String)
  | db (e : DbError)
  | pipeline (msg : String)
deriving DecidableEq, Repr

/-- `get_video_by_youtube_id`: `find_one({"video_id": youtube_id})` — first
stored document with the given source id, if any. -/
def get_video_by_youtube_id (db : VideosDb) (youtube_id : String) :
    Option StoredVideo :=
  db.videos.find? (fun v => v.doc.video_id == youtube_id)

/-- The external `insert_one` call: given the collection state, the payload
and the timestamp, it either yields the assigned `_id` with the new state,
or the database error the driver would raise. -/
def InsertBackend : Type :=
  VideosDb → VideoDoc → Nat → Except DbError (Nat × VideosDb)

/-- The normally behaving insert: append with a fresh `_id`, stamping the
timestamps `create_video` set on the payload. -/
def normalInsert : InsertBackend := fun db vd now =>
  Except.ok (db.nextOid, ⟨db.videos ++ [⟨db.nextOid, vd, now, now⟩], db.nextOid + 1⟩)

/-- `create_video` (video.py lines 56-85): stamp `created_at`/`updated_at`,
insert, re-read the created document by its `_id` and return it; any
database exception is logged and re-raised. -/
def create_video (ins : InsertBackend) (now : Nat) (db : VideosDb)
    (vd : VideoDoc) : Except DbError (StoredVideo × VideosDb) :=
  match ins db vd now with
  | .error e => .error e
  | .ok (oid, db1) =>
    match db1.videos.find? (fun v => v.oid == oid) with
    | none => .error .notFound
    | some v => .ok (v, db1)

/-- `process_and_save_video` (video.py lines 245-274): extract the id,
return any existing document for it unchanged, otherwise run the
processing pipeline (an external composite of YouTube fetch + AI
processing, passed as an oracle) and save the result; every failure is
logged and re-raised. -/
def process_and_save_video (pipeline : String → Except PError VideoDoc)
    (ins : InsertBackend) (now : Nat) (db : VideosDb) (url : String) :
    Except PError (StoredVideo × VideosDb) :=
  match Youtube.extractVideoId url with
  | none => .error (.noVideoId url)
  | some vid =>
    match get_video_by_youtube_id db vid with
    | some v => .ok (v, db)
    | none =>
      match pipeline url with
      | .error e => .error e
      | .ok vd =>
        match create_video ins now db vd with
        | .error e => .error (.db e)
        | .ok (sv, db1) => .ok (sv, db1)

theorem find?_append_none {α : Type} (p : α → Bool) (l2 : List α) :
    ∀ l1 : List α, l1.find? p = none → (l1 ++ l2).find? p = l2.find? p := by
  intro l1
  induction l1 with
  | nil => intro _; rfl
  | cons a l ih =>
    intro h
    rw [List.cons_append]
    cases hp : p a with
    | true =>
      rw [List.find?_cons_of_pos _ hp] at h
      simp at h
    | false =>
      have hp' : ¬ p a = true := by simp [hp]
      rw [List.find?_cons_of_neg _ hp'] at h
      rw [List.find?_cons_of_neg _ hp']
      exact ih h

/-- C3: (a) if a document with the url's video id already exists,
`process_and_save_video` returns it unmodified with the state unchanged —
for every pipeline and insert behavior, i.e. neither is ever consulted;
(b) on a fresh id, a successful run inserts exactly one document, and a
second call on the resulting state returns that same stored document with
the state again unchanged, for arbitrary second-call pipeline/insert
behavior — so two calls return the same document id and only one insert is
observable. -/
theorem claim_C3 :
    (∀ (pipeline : String → Except PError VideoDoc) (ins : InsertBackend)
        (now : Nat) (db : VideosDb) (url vid : String) (v : StoredVideo),
      Youtube.extractVideoId url = some vid →
      get_video_by_youtube_id db vid = some v →
      process_and_save_video pipeline ins now db url = .ok (v, db)) ∧
    (∀ (pipeline pipeline2 : String → Except PError VideoDoc)
        (ins2 : InsertBackend) (now now2 : Nat) (db : VideosDb)
        (url vid : String) (vd : VideoDoc),
      Youtube.extractVideoId url = some vid →
      get_video_by_youtube_id db vid = none →
      pipeline url = .ok vd →
      vd.video_id = vid →
      (∀ w ∈ db.videos, w.oid < db.nextOid) →
      ∃ sv db1,
        process_and_save_video pipeline normalInsert now db url = .ok (sv, db1) ∧
        db1.videos = db.videos ++ [sv] ∧
        sv.doc = vd ∧
        process_and_save_video pipeline2 ins2 now2 db1 url = .ok (sv, db1)) := by
  constructor
  · intro pipeline ins now db url vid v hx hf
    simp only [process_and_save_video, hx, hf]
  · intro pipeline pipeline2 ins2 now now2 db url vid vd hx hmiss hpipe hvid hfresh
    refine ⟨⟨db.nextOid, vd, now, now⟩, ⟨db.videos ++ [⟨db.nextOid, vd, now, now⟩],
      db.nextOid + 1⟩, ?_, rfl, rfl, ?_⟩
    · have hnone : db.videos.find? (fun v => v.oid == db.nextOid) = none := by
        rw [List.find?_eq_none]
        intro w hw
        simpa using (hfresh w hw).ne
      have hfind2 : (db.videos ++ [(⟨db.nextOid, vd, now, now⟩ : StoredVideo)]).find?
          (fun v => v.oid == db.nextOid) = some ⟨db.nextOid, vd, now, now⟩ := by
        rw [find?_append_none _ _ _ hnone]
        simp [List.find?_cons]
      simp only [process_and_save_video, hx, hmiss, hpipe, create_video,
        normalInsert, hfind2]
    · have hfind : get_video_by_youtube_id
          ⟨db.videos ++ [⟨db.nextOid, vd, now, now⟩], db.nextOid + 1⟩ vid =
          some ⟨db.nextOid, vd, now, now⟩ := by
        unfold get_video_by_youtube_id at hmiss ⊢
        rw [find?_append_none _ _ _ hmiss]
        simp [List.find?_cons, hvid]
      simp only [process_and_save_video, hx, hfind]

/-- C3 witness: a concrete state holding a document for the url's id — the
call returns it verbatim without state change — and a concrete fresh run
followed by a second call returning the same stored document. -/
theorem claim_C3_witness :
    process_and_save_video (fun _ => Except.error (PError.pipeline "down"))
      normalInsert 3
      ⟨[⟨0, ⟨"abcdefghijk", "Old"⟩, 1, 1⟩], 1⟩
      "https://www.youtube.com/watch?v=abcdefghijk" =
      Except.ok (⟨0, ⟨"abcdefghijk", "Old"⟩, 1, 1⟩,
        ⟨[⟨0, ⟨"abcdefghijk", "Old"⟩, 1, 1⟩], 1⟩) ∧
    ∃ sv db1,
      process_and_save_video (fun _ => Except.ok ⟨"dQw4w9WgXcQ", "New"⟩)
        normalInsert 5 ⟨[], 0⟩ "https://youtu.be/dQw4w9WgXcQ" =
        Except.ok (sv, db1) ∧
      db1.videos = [] ++ [sv] ∧
      sv.doc = (⟨"dQw4w9WgXcQ", "New"⟩ : VideoDoc) ∧
      process_and_save_video (fun _ => Except.error (PError.pipeline "down"))
        (fun _ _ _ => Except.error DbError.duplicateKey) 9 db1
        "https://youtu.be/dQw4w9WgXcQ" = Except.ok (sv, db1) := by
  constructor
  · exact claim_C3.1 _ normalInsert 3 _ _ "abcdefghijk" _ (by decide) rfl
  · exact claim_C3.2 _ _ _ 5 9 ⟨[], 0⟩ _ "dQw4w9WgXcQ" ⟨"dQw4w9WgXcQ", "New"⟩
      (by decide) rfl rfl rfl (by simp)

/-- C9 (amended): if the storage insert fails (for example with a
duplicate-key rejection), `create_video` re-raises the database error and
`process_and_save_video` propagates it to the caller; no lookup of the
now-existing document is attempted. -/
theorem claim_C9 (pipeline : String → Except PError VideoDoc)
    (ins : InsertBackend) (now : Nat) (db : VideosDb) (url vid : String)
    (vd : VideoDoc) (e : DbError)
    (hx : Youtube.extractVideoId url = some vid)
    (hmiss : get_video_by_youtube_id db vid = none)
    (hpipe : pipeline url = .ok vd)
    (hins : ins db vd now = .error e) :
    process_and_save_video pipeline ins now db url = .error (.db e) := by
  simp only [process_and_save_video, hx, hmiss, hpipe, create_video, hins]

/-- C9 counterexample: a concrete run whose insert is rejected with a
duplicate-key error; `process_and_save_video` surfaces the duplicate-key
failure to the caller instead of returning any stored document, so the
claimed recovery behavior does not exist in the code. -/
theorem claim_C9_counterexample :
    process_and_save_video (fun _ => Except.ok ⟨"abcdefghijk", "MyVid"⟩)
      (fun _ _ _ => Except.error DbError.duplicateKey) 7 ⟨[], 5⟩
      "https://www.youtube.com/watch?v=abcdefghijk" =
      Except.error (PError.db DbError.duplicateKey) := rfl

/-- C9 witness: `claim_C9` applied to a concrete failing insert. -/
theorem claim_C9_witness :
    process_and_save_video (fun _ => Except.ok ⟨"abcdefghijk", "T"⟩)
      (fun _ _ _ => Except.error DbError.duplicateKey) 0 ⟨[], 0⟩
      "youtu.be/abcdefghijk" =
      Except.error (PError.db DbError.duplicateKey) :=
  claim_C9 _ _ 0 ⟨[], 0⟩ _ "abcdefghijk" ⟨"abcdefghijk", "T"⟩
    DbError.duplicateKey (by decide) rfl rfl rfl

end VideoService

namespace Books

/-- The (metadata, transcript) artifact the upstream fetch stage yields
(spec §6, Transcript/Metadata Source). -/
structure FetchedData where
  title : String
  channel : String
  duration : Nat
  upload_date : String
  transcript : String

/-- A persisted BookDocument, keyed by its source-video id (unique index
`source_video.id` declared in `database.py` line 39). -/
structure BookDoc where
  oid : Nat
  source_id : String
  title : String
  summary : String
  processing_status : String
  created_at : Nat
deriving DecidableEq, Repr

/-- A ProcessingErrorRecord of the `processing_errors` collection
(indexes on `video_url` and `created_at` declared in `database.py`
lines 47-48). -/
structure ErrorRecord where
  video_url : String
  error : String
  created_at : Nat
  status : String
deriving DecidableEq, Repr

/-- The `books` and `processing_errors` collections. -/
structure BooksDb where
  books : List BookDoc
  errors : List ErrorRecord
  nextOid : Nat
deriving DecidableEq, Repr

/-- Modelled from the spec: the books-pipeline orchestrator — the
`process_video` method `app/main.py` schedules on `VideoService`, which
persists into the `books` and `processing_errors` collections declared in
`app/core/database.py` — is not present under `src/` (only its caller and
the collection declarations are).  Per spec §4.4, §4.6 and §7: extract the
video id (an identification failure is surfaced before any pipeline work
and writes no record); dedup-check the books store by source-video id and
return any existing document verbatim; fetch metadata/transcript (external,
an oracle); on an upstream-fetch failure append a ProcessingErrorRecord
(video URL, error text, timestamp, status `failed`) and surface the
failure, storing no BookDocument; otherwise run the content pipeline
(`build`, external) and persist exactly one completed document. -/
def process_video (fetch : String → Except String FetchedData)
    (build : FetchedData → ContentProcessor.BookContent) (now : Nat)
    (db : BooksDb) (url : String) :
    Except String BookDoc × BooksDb :=
  match Youtube.extractVideoId url with
  | none => (Except.error ("Could not extract video ID from URL: " ++ url), db)
  | some vid =>
    match db.books.find? (fun b => b.source_id == vid) with
    | some b => (Except.ok b, db)
    | none =>
      match fetch url with
      | .error e =>
        (Except.error e,
          ⟨db.books, db.errors ++ [⟨url, e, now, "failed"⟩], db.nextOid⟩)
      | .ok fd =>
        let bc := build fd
        let doc : BookDoc :=
          ⟨db.nextOid, vid, bc.title, bc.summary, "completed", now⟩
        (Except.ok doc, ⟨db.books ++ [doc], db.errors, db.nextOid + 1⟩)

/-- C7: if the metadata/transcript fetch fails for a video id with no
stored document, the run appends exactly one ProcessingErrorRecord whose
video URL is the requested URL, surfaces the failure to the caller, and
stores no BookDocument for that id. -/
theorem claim_C7 (fetch : String → Except String FetchedData)
    (build : FetchedData → ContentProcessor.BookContent) (now : Nat)
    (db : BooksDb) (url vid e : String)
    (hx : Youtube.extractVideoId url = some vid)
    (hmiss : db.books.find? (fun b => b.source_id == vid) = none)
    (hfetch : fetch url = .error e) :
    (process_video fetch build now db url).1 = .error e ∧
    (process_video fetch build now db url).2.errors =
      db.errors ++ [⟨url, e, now, "failed"⟩] ∧
    (process_video fetch build now db url).2.books = db.books ∧
    (process_video fetch build now db url).2.books.find?
      (fun b => b.source_id == vid) = none := by
  simp [process_video, hx, hmiss, hfetch]

/-- C7 witness: a concrete fetch failure on an empty store — the error
record is written with the requested URL and the books store stays empty. -/
theorem claim_C7_witness :
    (process_video (fun _ => Except.error "YouTube API error")
      (fun _ => ⟨"t", "a", "s", [], [], [], [], "ta", "dl", "vid", "u", 0, "ud"⟩)
      11 ⟨[], [], 0⟩ "youtu.be/abcdefghijk").1 =
      Except.error "YouTube API error" ∧
    (process_video (fun _ => Except.error "YouTube API error")
      (fun _ => ⟨"t", "a", "s", [], [], [], [], "ta", "dl", "vid", "u", 0, "ud"⟩)
      11 ⟨[], [], 0⟩ "youtu.be/abcdefghijk").2.errors =
      [⟨"youtu.be/abcdefghijk", "YouTube API error", 11, "failed"⟩] ∧
    (process_video (fun _ => Except.error "YouTube API error")
      (fun _ => ⟨"t", "a", "s", [], [], [], [], "ta", "dl", "vid", "u", 0, "ud"⟩)
      11 ⟨[], [], 0⟩ "youtu.be/abcdefghijk").2.books = [] := by
  have h := claim_C7 (fun _ => Except.error "YouTube API error")
    (fun _ => ⟨"t", "a", "s", [], [], [], [], "ta", "dl", "vid", "u", 0, "ud"⟩)
    11 ⟨[], [], 0⟩ "youtu.be/abcdefghijk" "abcdefghijk" "YouTube API error"
    (by decide) rfl rfl
  exact ⟨h.1, h.2.1, h.2.2.1⟩

end Books

namespace AIService

/-- Python string slicing `s[:n]` (by characters). -/
def pyTake (s : String) (n : Nat) : String := String.mk (s.data.take n)

/-- Python string slicing `s[n:]` (by characters). -/
def pyDrop (s : String) (n : Nat) : String := String.mk (s.data.drop n)

/-- `models/video.py` `Thumbnails`. -/
structure Thumbnails where
  default : String
  high : String

/-- `models/video.py` `Channel`.  The str-enum `ExpertiseLevel` is carried
as its string value. -/
structure Channel where
  id : String
  name : String
  url : String
  expertise_level : Option String
  content_quality : Option Nat

/-- `models/video.py` `GlossaryItem`. -/
structure GlossaryItem where
  term : String
  definition : String
deriving DecidableEq, Repr

/-- `models/video.py` `Exercise` (the `type` str-enum as its value). -/
structure Exercise where
  type : String
  content : String
  solution : Option String
deriving DecidableEq, Repr

/-- `models/video.py` `Resource` (the `type` str-enum as its value). -/
structure Resource where
  type : String
  url : String
  description : String
deriving DecidableEq, Repr

/-- `models/video.py` `Chapter`. -/
structure Chapter where
  title : String
  content : String
  timestamp : String
  key_points : List String
  exercises : List Exercise
  resources : List Resource
deriving DecidableEq, Repr

/-- `models/video.py` `Metadata` (datetimes as epoch numbers). -/
structure Metadata where
  description : String
  duration : Nat
  published_at : Nat
  thumbnails : Thumbnails
  language : Option String
  subtitles : List String
  prerequisites : List String
  learning_outcomes : List String
  estimated_reading_time : Option Nat

/-- `models/video.py` `Series`. -/
structure Series where
  name : String
  order : Nat
  total_parts : Nat

/-- `models/video.py` `LibraryData` (str-enums as their string values). -/
structure LibraryData where
  categories : List String
  tags : List String
  difficulty : String
  type : String
  primary_category : Option String
  series : Option Series
  content_structure : String
  certification_track : Option String
  skills_covered : List String

/-- `models/video.py` `Content`. -/
structure Content where
  summary : String
  chapters : List Chapter
  transcript : Option String
  glossary : List GlossaryItem
  key_takeaways : List String

/-- `models/video.py` `VideoBase` — the video document flowing through
`process_video_content`.  `status` holds the `Status` str-enum value,
defaulted to `"Draft"` by the model; the engagement/recommendations/
update-history fields, which no processing-path code reads or writes, are
not carried. -/
structure VideoData where
  video_id : String
  title : String
  slug : String
  channel : Channel
  metadata : Metadata
  library_data : LibraryData
  content : Content
  status : String

/-- One chapter of the processed-content dictionary (`ai.py`). -/
structure SimpleChapter where
  title : String
  content : String
  timestamp : String
  key_points : List String
deriving DecidableEq, Repr

/-- The processed-content dictionary returned by `ModalProcessor` or
`_simplified_processing`, with the orchestrator's `.get(..., default)`
accesses already applied. -/
structure ProcessedContent where
  summary : String
  primary_category : String
  categories : List String
  tags : List String
  difficulty : String
  content_structure : String
  skills_covered : List String
  prerequisites : List String
  learning_outcomes : List String
  channel_expertise_level : String
  estimated_reading_time : Nat
  chapters : List SimpleChapter
  key_takeaways : List String
  glossary : List GlossaryItem

/-- `_simplified_processing` (`ai.py` lines 413-496): deterministic
fallback — summary is the first 500 characters (ellipsis if truncated),
one to three chapters sliced from the transcript by length thresholds,
placeholder glossary and takeaways, reading time one minute per 1000
characters. -/
def simplified_processing (transcript : String) : ProcessedContent :=
  let summary0 := pyTake transcript 500
  let summary :=
    if 500 < transcript.length then summary0 ++ "..." else summary0
  let chapter_length := min transcript.length 1000
  let chapter_content0 := pyTake transcript chapter_length
  let chapter_content :=
    if chapter_length < transcript.length then chapter_content0 ++ "..."
    else chapter_content0
  let chapters1 : List SimpleChapter :=
    [⟨"Introduction", chapter_content, "0:00", ["Introduction to the content"]⟩]
  let chapters2 :=
    if 1000 < transcript.length then
      let mid_point := min (transcript.length / 2) 3000
      let mid_content0 := pyTake (pyDrop transcript mid_point) 1000
      let mid_content :=
        if mid_point + 1000 < transcript.length then mid_content0 ++ "..."
        else mid_content0
      chapters1 ++ [⟨"Main Content", mid_content, "5:00", ["Main discussion points"]⟩]
    else chapters1
  let chapters :=
    if 4000 < transcript.length then
      let end_point := transcript.length - 1000
      let end_content := pyDrop transcript end_point
      chapters2 ++ [⟨"Conclusion", end_content, "10:00", ["Summary and conclusions"]⟩]
    else chapters2
  ⟨summary, "Education", ["Education", "Technology"], ["learning", "tutorial"],
    "Intermediate", "Tutorial",
    ["Technical knowledge", "Understanding concepts"],
    ["Basic understanding of the subject"], ["Understanding of key concepts"],
    "Advanced", transcript.length / 1000, chapters,
    ["Key point from the video", "Another important concept covered"],
    [⟨"Topic 1", "Definition for Topic 1"⟩, ⟨"Topic 2", "Definition for Topic 2"⟩]⟩

/-- `difficulty_map.get(..., DifficultyLevel.INTERMEDIATE)` (`ai.py`
lines 372-381), on str-enum values. -/
def difficultyFromStr (s : String) : String :=
  if s = "Beginner" ∨ s = "Intermediate" ∨ s = "Advanced" ∨ s = "Expert" then s
  else "Intermediate"

/-- `expertise_map.get(..., ExpertiseLevel.ADVANCED)` (`ai.py`
lines 384-392). -/
def expertiseFromStr (s : String) : String :=
  if s = "Beginner-Friendly" ∨ s = "Advanced" ∨ s = "Expert" then s
  else "Advanced"

/-- `quality_map.get(..., 8)` (`ai.py` lines 395-403). -/
def qualityFromStr (s : String) : Nat :=
  if s = "Beginner-Friendly" then 7
  else if s = "Advanced" then 8
  else if s = "Expert" then 9
  else 8

/-- The update block of `process_video_content` (`ai.py` lines 326-403):
write the processed summary, chapters (with empty exercises/resources),
transcript, glossary, takeaways, metadata enrichments and library data into
the video document. -/
def applyProcessed (vd : VideoData) (transcript : String)
    (pd : ProcessedContent) : VideoData :=
  let expertise := expertiseFromStr pd.channel_expertise_level
  { vd with
    content :=
      { vd.content with
        summary := pd.summary
        chapters := pd.chapters.map (fun c =>
          ⟨c.title, c.content, c.timestamp, c.key_points, [], []⟩)
        transcript := some transcript
        glossary := pd.glossary.map (fun g => ⟨g.term, g.definition⟩)
        key_takeaways := pd.key_takeaways }
    metadata :=
      { vd.metadata with
        prerequisites := pd.prerequisites
        learning_outcomes := pd.learning_outcomes
        estimated_reading_time := some pd.estimated_reading_time }
    library_data :=
      { vd.library_data with
        categories := pd.categories
        tags := pd.tags
        primary_category := some pd.primary_category
        content_structure := pd.content_structure
        skills_covered := pd.skills_covered
        difficulty := difficultyFromStr pd.difficulty }
    channel :=
      { vd.channel with
        expertise_level := some expertise
        content_quality := some (qualityFromStr expertise) } }

/-- `AIProcessingService.__init__` (`ai.py` lines 270-281): the capable
backend is used only when a non-empty Modal token is configured (the
`set_token` call is external; a failure there also clears the flag, folded
into the boolean here). -/
def useModal (modalToken : Option String) : Bool :=
  match modalToken with
  | none => false
  | some t => t != ""

/-- `process_video_content` (`ai.py` lines 283-405): no transcript (or an
empty one) returns the document unchanged; with Modal enabled the remote
result is used, falling back to `_simplified_processing` when the remote
call fails; without Modal, `_simplified_processing` is used directly; the
processed content is then written into the document. -/
def process_video_content (modalEnabled : Bool)
    (modalResult : Except String ProcessedContent) (vd : VideoData)
    (transcript : Option String) : VideoData :=
  match transcript with
  | none => vd
  | some t =>
    if t = "" then vd
    else
      let pd :=
        if modalEnabled then
          match modalResult with
          | .ok p => p
          | .error _ => simplified_processing t
        else simplified_processing t
      applyProcessed vd t pd

theorem simplified_chapters_len (t : String) :
    1 ≤ (simplified_processing t).chapters.length := by
  unfold simplified_processing
  split_ifs <;> simp

theorem pyTake_ne_empty (s : String) (n : Nat) (hs : s ≠ "") (hn : 0 < n) :
    pyTake s n ≠ "" := by
  unfold pyTake
  apply ContentProcessor.mk_ne_empty_of_ne_nil
  cases hd : s.data with
  | nil => exact absurd (by cases s; simp at hd; simp [hd]) hs
  | cons c cs =>
    cases n with
    | zero => exact absurd hn (by simp)
    | succ m => simp [List.take_succ_cons]

theorem append_ne_empty_left (a b : String) (ha : a ≠ "") : a ++ b ≠ "" := by
  intro h
  have hd := congrArg String.data h
  rw [String.data_append] at hd
  rcases List.append_eq_nil.mp hd with ⟨h1, _⟩
  exact ha (by cases a; simp at h1; simp [h1])

theorem simplified_summary_ne (t : String) (ht : t ≠ "") :
    (simplified_processing t).summary ≠ "" := by
  unfold simplified_processing
  split
  · exact append_ne_empty_left _ _ (pyTake_ne_empty t 500 ht (by norm_num))
  · exact pyTake_ne_empty t 500 ht (by norm_num)

/-- C6 (amended): with the capable (Modal) backend unconfigured and a
non-empty transcript available, `process_video_content` still succeeds via
`_simplified_processing`: the returned document has a non-empty summary and
at least one chapter.  Its `status` field is left unchanged (the model's
default is `"Draft"`); the document has no `processing_status` field and
the `Status` enum has no `completed` value. -/
theorem claim_C6 (modalResult : Except String ProcessedContent)
    (vd : VideoData) (t : String) (ht : t ≠ "") :
    (process_video_content false modalResult vd (some t)).content.summary ≠ "" ∧
    1 ≤ (process_video_content false modalResult vd (some t)).content.chapters.length ∧
    (process_video_content false modalResult vd (some t)).status = vd.status := by
  have hred : process_video_content false modalResult vd (some t) =
      applyProcessed vd t (simplified_processing t) := by
    simp [process_video_content, ht]
  rw [hred]
  refine ⟨simplified_summary_ne t ht, ?_, rfl⟩
  simpa [applyProcessed] using simplified_chapters_len t

/-- A concrete initial document as `get_video_details` constructs it:
empty content, default `"Draft"` status. -/
def sampleVideo : VideoData :=
  ⟨"abcdefghijk", "Sample", "sample",
    ⟨"ch1", "Chan", "https://www.youtube.com/channel/ch1", none, none⟩,
    ⟨"desc", 60, 0, ⟨"http://th/d", "http://th/h"⟩, none, [], [], [], none⟩,
    ⟨[], [], "Intermediate", "video", none, none, "Tutorial", none, []⟩,
    ⟨"", [], none, [], []⟩,
    "Draft"⟩

/-- C6 witness: `claim_C6` applied to a concrete document and transcript;
the status stays `"Draft"`. -/
theorem claim_C6_witness :
    (process_video_content false (Except.error "no modal") sampleVideo
      (some "hello world")).content.summary ≠ "" ∧
    1 ≤ (process_video_content false (Except.error "no modal") sampleVideo
      (some "hello world")).content.chapters.length ∧
    (process_video_content false (Except.error "no modal") sampleVideo
      (some "hello world")).status = "Draft" := by
  have h := claim_C6 (Except.error "no modal") sampleVideo "hello world"
    (by decide)
  exact ⟨h.1, h.2.1, h.2.2⟩

/-- C6 counterexample: in that same successful no-Modal run the document's
status value is `"Draft"` — not `completed`; the claimed
`processing_status = completed` does not hold of the code's document model
(there is no `processing_status` field, and the `Status` enum's values are
`Draft`, `Published` and `Under Review`). -/
theorem claim_C6_counterexample :
    (process_video_content false (Except.error "no modal") sampleVideo
      (some "hello world")).status = "Draft" ∧
    ("Draft" : String) ≠ "completed" := by
  constructor
  · rfl
  · decide

end AIService
